import Mathlib

/-!
Verification of the timed-session engine of a chat-platform bot.

The development shallowly embeds two modules:

* `KCA` — the message-train ("keep channel alive") challenge from
  `lib/keep_channel_alive.py`: a session state machine with a
  participant ledger, a 5-second periodic tick (`keep_alive`), reminder
  thresholds, a 60-second timeout and a random-winner resolution policy
  (`distribute_reward`).
* `TriviaMod` — the trivia game from `lib/trivia.py`: an ordered question
  list, a per-question clock (an `asyncio.sleep` delay between
  questions), case-insensitive answer matching and question advancing.

Timestamps are modelled as integers (seconds); Python `datetime`
subtraction becomes integer subtraction.  Every boundary the properties
mention (the 60-second budget, the 30/15-second bands, the 30-second
reminder threshold, the `time_between * 60` delay) is integral, and the
source compares elapsed time against these integral constants, so the
comparisons coincide with the float-valued originals at every boundary
of interest.  Side effects (Discord sends, permission toggles, timer
restarts) are modelled as explicit effect lists returned by each
transition.  Randomness (`random.choice`) and the identity lookup
(`bot.fetch_user`) are passed in as parameters.
-/

namespace KCA

/-- `DURATION: int = 60` — the timeout budget in seconds. -/
def DURATION : ℤ := 60

/-- The standard colors used by the embeds; only the three used by
`get_color_based_on_time` matter here. -/
inductive DColor where
  | green
  | gold
  | red
  deriving DecidableEq, Repr

/-- The reminder template text of the single configured threshold. -/
def reminderText : String :=
  "You are at risk of losing your reward of {reward}. Send a message to keep it alive"

/-- `reminders` — the module-level reminder threshold list:
`[(DURATION / 2, reminderText)]` (in Python `DURATION / 2` is the float
`30.0`; the division is exact, so the threshold is the integer 30). -/
def reminders : List (ℤ × String) :=
  [(DURATION / 2, reminderText)]

/-- The mutable state of the `KeepChannelAlive` cog.  The Discord
`status_message` handle is presentation glue and is not modelled. -/
structure State where
  active : Bool
  channel_id : Option Nat
  reward : String
  last_message : Option ℤ
  started_at : Option ℤ
  last_reminder : Option ℤ
  participants : List (Nat × Nat)
  deriving DecidableEq, Repr

/-- `reset()` — the state after clearing every field (also the state
`__init__` establishes).  `keep_alive.stop()` is a timer effect with no
bearing on the stored fields. -/
def resetState : State :=
  { active := false
    channel_id := none
    reward := ""
    last_message := none
    started_at := none
    last_reminder := none
    participants := [] }

/-- `get_color_based_on_time(remaining_time)` from lines 70-80. -/
def get_color_based_on_time (remaining_time : ℤ) : DColor :=
  if remaining_time > DURATION / 2 then DColor.green
  else if remaining_time > DURATION / 4 then DColor.gold
  else DColor.red

/-- The `bar_color` selected inside `progress()` (lines 98-110); the
`empty_color` is `'⬜'` in every branch. -/
def progress_bar_color (elapsed : ℤ) : Char :=
  if DURATION - elapsed > DURATION / 2 then '🟩'
  else if DURATION - elapsed > DURATION / 4 then '🟨'
  else '🟥'

/-- The core of `progress()` (lines 91-116) for an active session with a
known `last_message`: the "ended" guard, then a 20-segment bar.  Python
`int()` truncates toward zero, as `Int` division does on the
non-negative values that reach this point. -/
def progressBar (elapsed : ℤ) : String :=
  if elapsed > DURATION then "Message train has ended"
  else
    let filled := (20 * elapsed / DURATION).toNat
    String.mk (List.replicate filled (progress_bar_color elapsed) ++
      List.replicate (20 - filled) '⬜')

/-- Whether a reminder threshold passes the `self.last_reminder is None
or reminder[0] > self.last_reminder` test on lines 354-355. -/
def lastOk : Option ℤ → ℤ → Bool
  | none, _ => true
  | some l, t => decide (l < t)

/-- The reminder-selection loop of `keep_alive` (lines 352-357): walk
the reminder list in order, keeping the last entry whose threshold has
been reached and which is strictly above the last fired threshold. -/
def relevantReminder (elapsed : ℤ) (last : Option ℤ) (rs : List (ℤ × String)) :
    Option (ℤ × String) :=
  rs.foldl (fun acc r => if r.1 ≤ elapsed ∧ lastOk last r.1 = true then some r else acc) none

/-- The ledger update in `on_message` (lines 324-326): insert the author
at 0 if absent, then increment.  Python dicts keep insertion order, so a
new key is appended at the end. -/
def bump (id : Nat) : List (Nat × Nat) → List (Nat × Nat)
  | [] => [(id, 1)]
  | (k, v) :: t => if k = id then (k, v + 1) :: t else (k, v) :: bump id t

/-- Observable side effects of the transitions. -/
inductive Effect where
  | updateStatus
  | reminder (threshold : ℤ)
  | resolve
  | timerRestart
  | started
  | cancelled
  | errorNoActive
  deriving DecidableEq, Repr

/-- `on_start` (lines 194-231): guards on `active`, then activates the
session binding the channel; the initial embed and status render are the
`started`/`updateStatus` effects.  Note that `participants` and
`last_reminder` are not touched here (only `reset` clears them). -/
def on_start (now : ℤ) (channel : Nat) (reward : String) (s : State) :
    State × List Effect :=
  if s.active then (s, [])
  else
    ({ s with
        active := true
        channel_id := some channel
        reward := reward
        last_message := some now
        started_at := some now },
      [Effect.started, Effect.updateStatus])

/-- `on_message` (lines 313-334): ignore when inactive, when the message
is for a different channel, or when the author is a bot; otherwise bump
the ledger, restart the tick cadence, reset the clock and clear the
fired-reminder marker. -/
def on_message (now : ℤ) (authorId : Nat) (authorIsBot : Bool) (channel : Nat)
    (s : State) : State × List Effect :=
  if s.active = false then (s, [])
  else if s.channel_id ≠ some channel then (s, [])
  else if authorIsBot then (s, [])
  else
    ({ s with
        participants := bump authorId s.participants
        last_message := some now
        last_reminder := none },
      [Effect.timerRestart, Effect.updateStatus])

/-- `cancel` (lines 177-192): with no active session, reply with an
error; otherwise `reset()` and reply with the cancellation embed.  No
resolution policy runs on this path. -/
def cancel (s : State) : State × List Effect :=
  if s.active = false then (s, [Effect.errorNoActive])
  else (resetState, [Effect.cancelled])

/-- The `keep_alive` tick (lines 336-390): guards, unconditional status
render, reminder selection (storing `int(relevant_reminder[0])`, which
is the identity on the integral threshold), and the timeout check
`(datetime.now() - self.last_message).total_seconds() > 60` which
invokes `distribute_reward` (the `resolve` effect) and resets.  The
`datetime.now()` reads of one tick are modelled as the single instant
`now`. -/
def keep_alive (now : ℤ) (s : State) : State × List Effect :=
  if s.active = false then (s, [])
  else
    match s.last_message with
    | none => (s, [])
    | some lm =>
      match s.channel_id with
      | none => (s, [])
      | some _ =>
        let elapsed := now - lm
        let rel := relevantReminder elapsed s.last_reminder reminders
        let s1 : State :=
          match rel with
          | some r => { s with last_reminder := some r.1 }
          | none => s
        let effs : List Effect :=
          Effect.updateStatus ::
            (match rel with
            | some r => [Effect.reminder r.1]
            | none => [])
        if elapsed > 60 then (resetState, effs ++ [Effect.resolve])
        else (s1, effs)

/-- The inbound events the cog reacts to. -/
inductive Event where
  | start (now : ℤ) (channel : Nat) (reward : String)
  | msg (now : ℤ) (author : Nat) (isBot : Bool) (channel : Nat)
  | tick (now : ℤ)
  | cancel
  deriving DecidableEq, Repr

/-- Whether an event is a session activation. -/
def Event.isStart : Event → Bool
  | Event.start _ _ _ => true
  | _ => false

/-- Dispatch one event to the corresponding handler. -/
def step (s : State) : Event → State × List Effect
  | Event.start now ch rw => on_start now ch rw s
  | Event.msg now a b ch => on_message now a b ch s
  | Event.tick now => keep_alive now s
  | Event.cancel => cancel s

/-- Run a sequence of events, accumulating every emitted effect. -/
def run (s : State) : List Event → State × List Effect
  | [] => (s, [])
  | e :: es =>
    let r := step s e
    let rest := run r.1 es
    (rest.1, r.2 ++ rest.2)

/-- How many times the resolution policy (`distribute_reward`) was
invoked in an effect list. -/
def resCount (effs : List Effect) : Nat :=
  effs.count Effect.resolve

/-- Outcomes of `distribute_reward` (lines 392-417): missing channel,
empty ledger ("no participants" embed), failed identity lookup ("No
winner could be determined"), or a winner announcement. -/
inductive RewardOutcome where
  | noChannel
  | noWinner
  | undeterminable
  | winner (id : Nat)
  deriving DecidableEq, Repr

/-- `distribute_reward` (lines 392-417).  `random.choice(participants)`
draws a uniform index into the key list; the draw is passed in as
`pick` (meaningful when `pick < keys.length`, matching `random.choice`'s
contract on a non-empty list; the default in `getD` is never used
then).  `bot.fetch_user` is the `fetch` parameter; `discord.NotFound`
is `none`. -/
def distribute_reward (channel : Option Nat) (participants : List (Nat × Nat))
    (pick : Nat) (fetch : Nat → Option Nat) : RewardOutcome :=
  match channel with
  | none => RewardOutcome.noChannel
  | some _ =>
    let keys := participants.map Prod.fst
    if keys.isEmpty then RewardOutcome.noWinner
    else
      let winner_id := keys.getD pick 0
      match fetch winner_id with
      | none => RewardOutcome.undeterminable
      | some _ => RewardOutcome.winner winner_id

end KCA

namespace TriviaMod

/-- `TriviaQuestion` from `lib/trivia.py`. -/
structure TriviaQuestion where
  Question : String
  Answer : String
  Reward : String
  deriving DecidableEq, Repr

/-- Python's `str.lower()`, character by character (`Char.toLower`
folds the ASCII range, which is what the trivia answers use). -/
def str_lower (s : String) : List Char :=
  s.data.map Char.toLower

/-- The combined state of the `Trivia` cog and its `TriviaSession`.
The cog and the session carry separate `active` flags (the completion
path clears only the cog's flag), so both are kept.  `pending` holds
the deadlines of outstanding `wait_and_continue_task` sleeps — each
`asyncio.create_task` adds one, and its continuation can only run once
its `asyncio.sleep(time_between * 60)` has elapsed.  `posted` is a
ghost field recording which question indices have been sent with
`post_question`, used only to state properties. -/
structure SState where
  cog_active : Bool
  sess_active : Bool
  channel : Option Nat
  questions : List TriviaQuestion
  current_question : Nat
  time_between : Nat
  pending : List ℤ
  posted : List Nat
  deriving DecidableEq, Repr

/-- `TriviaSession.__init__(bot, questions, time_between)` together with
the cog's initial fields. -/
def mkSession (questions : List TriviaQuestion) (time_between : Nat) : SState :=
  { cog_active := false
    sess_active := false
    channel := none
    questions := questions
    current_question := 0
    time_between := time_between
    pending := []
    posted := [] }

/-- `TriviaSession.get_current_question` (`self.questions[self.current_question]`);
the Python indexing raises on out-of-bounds, modelled as `none`. -/
def get_current_question (s : SState) : Option TriviaQuestion :=
  s.questions.get? s.current_question

/-- `TriviaSession.has_next_question`. -/
def has_next_question (s : SState) : Bool :=
  decide (s.current_question + 1 < s.questions.length)

/-- `TriviaSession.is_answer_correct`:
`answer.lower() == self.get_current_question().Answer.lower()`; `false`
stands for the out-of-bounds crash that the in-bounds invariant rules
out. -/
def is_answer_correct (s : SState) (answer : String) : Bool :=
  match get_current_question s with
  | some q => str_lower answer == str_lower q.Answer
  | none => false

/-- Observable side effects of the trivia transitions. -/
inductive TEff where
  | welcome
  | lock
  | unlock
  | post (idx : Nat)
  | win (idx : Nat)
  | complete
  deriving DecidableEq, Repr

/-- `on_channel_select` + `TriviaSession.start` + the head of
`wait_and_continue_task`: activate cog and session, bind the channel,
send the welcome embed, lock the channel and schedule the first
question for `now + time_between * 60` seconds. -/
def sessionStart (now : ℤ) (channel : Nat) (s : SState) : SState × List TEff :=
  ({ s with
      cog_active := true
      sess_active := true
      channel := some channel
      pending := s.pending ++ [now + 60 * s.time_between] },
    [TEff.welcome, TEff.lock])

/-- The continuation of `wait_and_continue_task` (lines 127-136) for the
`i`-th outstanding sleep: it can run only once `now` has reached its
deadline; it consumes the deadline, returns silently if the session was
deactivated, and otherwise posts the current question (unlocking the
channel first, inside `post_question`).  An out-of-bounds
`get_current_question` would raise in Python; modelled as no post. -/
def timer_fire (now : ℤ) (i : Nat) (s : SState) : SState × List TEff :=
  match s.pending.get? i with
  | none => (s, [])
  | some d =>
    if d ≤ now then
      let s1 := { s with pending := s.pending.eraseIdx i }
      if s1.sess_active = false then (s1, [])
      else
        match get_current_question s1 with
        | none => (s1, [])
        | some _ =>
          ({ s1 with posted := s1.posted ++ [s1.current_question] },
            [TEff.unlock, TEff.post s1.current_question])
    else (s, [])

/-- `Trivia.on_message` (lines 283-361): guards on the cog being active,
the bound channel and non-bot authorship; on a correct answer, the win
notices fire, then either the index advances and a new delayed task is
scheduled (`next_question` + `wait_and_continue`, the task locking the
channel before its sleep), or — with no next question — the completion
embeds fire and the cog deactivates (the session object's own `active`
flag is not cleared on this path). -/
def trivia_on_message (now : ℤ) (authorIsBot : Bool) (channel : Nat)
    (content : String) (s : SState) : SState × List TEff :=
  if s.cog_active = false then (s, [])
  else if s.channel ≠ some channel then (s, [])
  else if authorIsBot then (s, [])
  else if is_answer_correct s content then
    if has_next_question s then
      ({ s with
          current_question := s.current_question + 1
          pending := s.pending ++ [now + 60 * s.time_between] },
        [TEff.win s.current_question, TEff.lock])
    else
      ({ s with cog_active := false, channel := none },
        [TEff.win s.current_question, TEff.complete])
  else (s, [])

/-- Timed events against a running trivia session. -/
inductive TEvent where
  | msg (now : ℤ) (authorIsBot : Bool) (channel : Nat) (content : String)
  | fire (now : ℤ) (i : Nat)
  deriving DecidableEq, Repr

/-- The instant at which an event happens. -/
def TEvent.time : TEvent → ℤ
  | TEvent.msg now _ _ _ => now
  | TEvent.fire now _ => now

/-- Dispatch one timed event. -/
def stepT (s : SState) : TEvent → SState × List TEff
  | TEvent.msg now b ch c => trivia_on_message now b ch c s
  | TEvent.fire now i => timer_fire now i s

/-- Run a sequence of events, tagging each emitted effect with the time
of the event that produced it. -/
def runT (s : SState) : List TEvent → SState × List (ℤ × TEff)
  | [] => (s, [])
  | e :: es =>
    let r := stepT s e
    let rest := runT r.1 es
    (rest.1, r.2.map (fun f => (e.time, f)) ++ rest.2)

/-- One post-`DictReader` CSV row: the `Question`, `Answer` and `Reward`
columns. -/
def Row := String × String × String

/-- `Trivia.load_trivia_csv` (lines 164-178), modelled at the row level:
`csv.DictReader` over a byte payload yields the data rows (an empty or
header-only CSV yields no rows), and each row becomes a
`TriviaQuestion`. -/
def load_trivia_csv (rows : List Row) : List TriviaQuestion :=
  rows.map (fun r => { Question := r.1, Answer := r.2.1, Reward := r.2.2 })

/-- Decimal value of a digit string. -/
def digitsToNat (cs : List Char) : Nat :=
  cs.foldl (fun acc c => 10 * acc + (c.toNat - 48)) 0

/-- `parse("\x7b:d\x7dm", time_between_questions)` from line 187: the
whole string must be an integer followed by the literal `m`.  A
non-empty digit string followed by `m` parses to its value; anything
else is a failed parse (`None`). -/
def parse_minutes (s : String) : Option Nat :=
  match s.data.getLast? with
  | some c =>
    if c = 'm' then
      let ds := s.data.dropLast
      if ds ≠ [] ∧ ds.all Char.isDigit then some (digitsToNat ds) else none
    else none
  | none => none

/-- The outcome of the `trivia` command: the error embeds it sent, and
the session it stored in `self.session`, holding the loaded question
list and the minutes between questions. -/
structure CmdResult where
  errors : List String
  session : Option (List TriviaQuestion × Nat)
  deriving DecidableEq, Repr

/-- `Trivia.trivia` (lines 180-213): reject when already active, on a
malformed interval, or with no attachment; otherwise store a new
`TriviaSession` built from the attached CSV's rows.  (The `try/except`
covers I/O and decode errors, which do not arise at the row level.) -/
def trivia_cmd (isActive : Bool) (timeStr : String) (attachments : List (List Row)) :
    CmdResult :=
  if isActive then { errors := ["Trivia is already active"], session := none }
  else
    match parse_minutes timeStr with
    | none => { errors := ["Invalid time format. Please use Xm (e.g. 5m for 5 minutes)."], session := none }
    | some tb =>
      match attachments with
      | [] => { errors := ["Please attach a trivia CSV file!"], session := none }
      | a :: _ => { errors := [], session := some (load_trivia_csv a, tb) }

end TriviaMod

/-! Concrete sample data used when instantiating the theorems. -/

namespace KCA

/-- A representative active message-train session: bound to channel 1,
clock last reset at time 0, one participant with two messages, no
reminder fired yet. -/
def sampleActive : State :=
  { active := true
    channel_id := some 1
    reward := "r"
    last_message := some 0
    started_at := some 0
    last_reminder := none
    participants := [(5, 2)] }

end KCA

namespace TriviaMod

/-- Sample first trivia question. -/
def exQ1 : TriviaQuestion := { Question := "q1", Answer := "a1", Reward := "r1" }

/-- Sample second trivia question. -/
def exQ2 : TriviaQuestion := { Question := "q2", Answer := "a2", Reward := "r2" }

/-- A two-question session with a 1-minute gap, started in channel 9 at
time 0: the first question is scheduled to be posted at time 60. -/
def exStart : SState := (sessionStart 0 9 (mkSession [exQ1, exQ2] 1)).1

/-- The racing trace: question 1 (index 0) is answered correctly at
time 10 — before it was ever posted — and then the stale sleep task
created at session start fires at its deadline 60. -/
def exTrace : List TEvent :=
  [TEvent.msg 10 false 9 "A1", TEvent.fire 60 0]

/-- A session in the question-open phase for question 1 (index 0, no
outstanding sleeps), used to instantiate the between-questions delay
theorem. -/
def exOpen : SState :=
  { cog_active := true
    sess_active := true
    channel := some 9
    questions := [exQ1, exQ2]
    current_question := 0
    time_between := 1
    pending := []
    posted := [0] }

/-- A session in the waiting phase: question 1 (index 0) has been
posted and answered, question 2 (index 1) is current but not yet
posted, and one sleep task is outstanding with deadline 70. -/
def exWaiting : SState :=
  { cog_active := true
    sess_active := true
    channel := some 9
    questions := [exQ1, exQ2]
    current_question := 1
    time_between := 1
    pending := [70]
    posted := [0] }

/-- The window events used to instantiate the no-early-post theorem:
a premature timer poll and an unrelated wrong answer, both strictly
inside the 60-second window that opens at time 0. -/
def exWindow : List TEvent :=
  [TEvent.fire 30 0, TEvent.msg 50 false 9 "zzz"]

end TriviaMod

/-! ## Theorems about the message-train engine -/

namespace KCA

/-- The tick is a no-op on an inactive session (the `if not self.active`
guard at the top of `keep_alive`). -/
theorem keep_alive_inactive (now : ℤ) (s : State) (h : s.active = false) :
    keep_alive now s = (s, []) := by
  simp [keep_alive, h]

/-- Effect counting distributes over concatenation. -/
theorem resCount_append (a b : List Effect) :
    resCount (a ++ b) = resCount a + resCount b :=
  List.count_append _ _ _

/-- Per-step bound: a single transition invokes the resolution policy
at most once, and whenever it does the resulting state is inactive. -/
theorem step_resolve_spec (s : State) (e : Event) :
    resCount (step s e).2 ≤ 1 ∧
      (0 < resCount (step s e).2 → (step s e).1.active = false) := by
  cases e with
  | start now ch rw =>
    simp only [step, on_start]
    split <;> simp [resCount]
  | msg now a b ch =>
    simp only [step, on_message]
    split_ifs <;> simp [resCount]
  | tick now =>
    simp only [step, keep_alive]
    split
    · simp [resCount]
    · split
      · simp [resCount]
      · split
        · simp [resCount]
        · split_ifs with htime <;>
            rcases hrel : relevantReminder _ _ reminders with _ | r <;>
            simp [hrel, resCount, resetState]
  | cancel =>
    simp only [step, cancel]
    split_ifs <;> simp [resCount]

/-- An inactive session stays inactive and emits no resolution under
any non-activation event. -/
theorem step_inactive (s : State) (e : Event) (h : s.active = false)
    (hs : e.isStart = false) :
    (step s e).1.active = false ∧ resCount (step s e).2 = 0 := by
  cases e with
  | start now ch rw => simp [Event.isStart] at hs
  | msg now a b ch => simp [step, on_message, h, resCount]
  | tick now => simp [step, keep_alive, h, resCount]
  | cancel => simp [step, cancel, h, resCount]

/-- Along any event sequence containing no activation, the resolution
policy runs at most once, and never from an inactive start state. -/
theorem run_resolve_le (evs : List Event) :
    ∀ s : State, (∀ e ∈ evs, e.isStart = false) →
      resCount (run s evs).2 ≤ 1 ∧
        (s.active = false → resCount (run s evs).2 = 0) := by
  induction evs with
  | nil => intro s _; simp [run, resCount]
  | cons e es ih =>
    intro s h
    have he : e.isStart = false := h e (by simp)
    have hes : ∀ e' ∈ es, e'.isStart = false := fun e' h' => h e' (by simp [h'])
    have hstep := step_resolve_spec s e
    have hrest := ih (step s e).1 hes
    have hsplit : resCount (run s (e :: es)).2 =
        resCount (step s e).2 + resCount (run (step s e).1 es).2 := by
      simp only [run]
      exact resCount_append _ _
    constructor
    · rcases Nat.eq_zero_or_pos (resCount (step s e).2) with hz | hpos
      · omega
      · have hinact := hstep.2 hpos
        have hzero := hrest.2 hinact
        omega
    · intro hact
      have h1 := step_inactive s e hact he
      have h2 := hrest.2 h1.1
      omega

/-- C2: the terminal resolution side effect fires at most once per
activation — along any event sequence with no new activation the
resolution policy (`distribute_reward`, the `resolve` effect) is
invoked at most once; manual cancellation never invokes it; and once
the session is inactive a tick is a complete no-op, so further ticks
after resolution do nothing. -/
theorem c2_resolution_once :
    (∀ (s : State) (evs : List Event),
        (∀ e ∈ evs, e.isStart = false) → resCount (run s evs).2 ≤ 1) ∧
    (∀ s : State, Effect.resolve ∉ (cancel s).2) ∧
    (∀ (s : State) (now : ℤ), s.active = false → keep_alive now s = (s, [])) := by
  refine ⟨fun s evs h => (run_resolve_le evs s h).1, fun s => ?_,
    fun s now h => keep_alive_inactive now s h⟩
  unfold cancel
  split_ifs <;> simp

/-- Witness for C2: a concrete activation that times out, ticks again
and is cancelled resolves at most once; cancelling the sample session
emits no resolution; a tick on the reset state is a no-op. -/
theorem c2_resolution_once_witness :
    resCount (run sampleActive [Event.tick 61, Event.tick 66, Event.cancel]).2 ≤ 1 ∧
    Effect.resolve ∉ (cancel sampleActive).2 ∧
    keep_alive 5 resetState = (resetState, []) :=
  ⟨c2_resolution_once.1 sampleActive _ (by decide),
   c2_resolution_once.2.1 sampleActive,
   c2_resolution_once.2.2 resetState 5 (by decide)⟩

/-- C1 (counterexample): the claim asserts that a tick at which the
elapsed time equals exactly 60 already resolves the session.  The
timeout guard on line 386 is strict (`... > 60`), so the tick at
elapsed exactly 60 leaves the session active (it merely fires the
30-second reminder) and does not invoke the resolution policy. -/
theorem c1_counterexample :
    (keep_alive 60 sampleActive).1.active = true ∧
    Effect.resolve ∉ (keep_alive 60 sampleActive).2 := by decide

/-- C1 (amended): when a tick of an active session runs with elapsed
time since the last qualifying event strictly greater than the
60-second budget, the resolution policy is invoked and the session
transitions to the inactive reset state; a tick at which elapsed equals
exactly 60 does not yet resolve — the session stays active and no
resolution is invoked. -/
theorem c1_timeout_resolves :
    (∀ (s : State) (now lm : ℤ) (c : Nat),
        s.active = true → s.last_message = some lm → s.channel_id = some c →
        60 < now - lm →
        (keep_alive now s).1 = resetState ∧
          Effect.resolve ∈ (keep_alive now s).2) ∧
    (∀ (s : State) (now lm : ℤ) (c : Nat),
        s.active = true → s.last_message = some lm → s.channel_id = some c →
        now - lm = 60 →
        (keep_alive now s).1.active = true ∧
          Effect.resolve ∉ (keep_alive now s).2) := by
  constructor
  · intro s now lm c h1 h2 h3 h4
    simp only [keep_alive, h1, h2, h3]
    rw [if_neg (by simp)]
    rw [if_pos h4]
    constructor
    · rfl
    · exact List.mem_append_right _ (by simp)
  · intro s now lm c h1 h2 h3 h4
    simp only [keep_alive, h1, h2, h3]
    rw [if_neg (by simp)]
    rw [if_neg (by rw [h4]; exact lt_irrefl 60)]
    rcases hrel : relevantReminder (now - lm) s.last_reminder reminders with _ | r <;>
      simp [hrel, h1]

/-- Witness for C1 (amended): the sample session at a tick 61 seconds
after its last message resolves and resets; at exactly 60 seconds it
stays active without resolving. -/
theorem c1_timeout_resolves_witness :
    ((keep_alive 61 sampleActive).1 = resetState ∧
      Effect.resolve ∈ (keep_alive 61 sampleActive).2) ∧
    ((keep_alive 60 sampleActive).1.active = true ∧
      Effect.resolve ∉ (keep_alive 60 sampleActive).2) :=
  ⟨c1_timeout_resolves.1 sampleActive 61 0 1 rfl rfl rfl (by decide),
   c1_timeout_resolves.2 sampleActive 60 0 1 rfl rfl rfl (by decide)⟩

/-- Any in-range index of the key list selects a key of the list. -/
theorem getD_mem_of_lt {l : List Nat} {i : Nat} (h : i < l.length) :
    l.getD i 0 ∈ l := by
  rw [List.getD_eq_getElem l 0 h]
  exact List.getElem_mem h

/-- If `p` does not occur in the key list, no index selects it. -/
theorem indices_selecting_eq_zero {l : List Nat} {p : Nat} (hp : p ∉ l) :
    ((List.range l.length).filter (fun i => decide (l.getD i 0 = p))).length = 0 := by
  rw [List.length_eq_zero, List.filter_eq_nil_iff]
  intro i hi
  simp only [List.mem_range] at hi
  simp only [decide_eq_true_eq]
  intro hcontra
  exact hp (hcontra ▸ getD_mem_of_lt hi)

/-- In a duplicate-free key list every present key is selected by
exactly one index: the random draw is uniform over distinct keys,
independent of the per-key message counts. -/
theorem indices_selecting_eq_one {l : List Nat} {p : Nat} (hnd : l.Nodup) (hp : p ∈ l) :
    ((List.range l.length).filter (fun i => decide (l.getD i 0 = p))).length = 1 := by
  induction l with
  | nil => simp at hp
  | cons a t ih =>
    have hrange : List.range (a :: t).length = 0 :: (List.range t.length).map Nat.succ := by
      rw [List.length_cons, List.range_succ_eq_map]
    have hpred : ((List.range t.length).map Nat.succ).filter
        (fun i => decide ((a :: t).getD i 0 = p)) =
        ((List.range t.length).filter (fun i => decide (t.getD i 0 = p))).map Nat.succ := by
      rw [List.filter_map]
      congr 1
    rcases List.nodup_cons.mp hnd with ⟨hat, hndt⟩
    rw [hrange, List.filter_cons, hpred]
    by_cases hap : a = p
    · have hpt : p ∉ t := fun hmem => hat (hap ▸ hmem)
      have hz := indices_selecting_eq_zero (l := t) (p := p) hpt
      rw [if_pos (by simp [List.getD_cons_zero, hap])]
      rw [List.length_cons, List.length_map, hz]
    · have hpt : p ∈ t := by
        rcases List.mem_cons.mp hp with h | h
        · exact absurd h.symm hap
        · exact h
      rw [if_neg (by simp [List.getD_cons_zero, hap])]
      rw [List.length_map]
      exact ih hndt hpt

/-- C3: at resolution time an empty participant ledger yields the
"no winner" render (not an error); with a non-empty ledger the winner
is the key at the drawn index — a member of the distinct key list, with
every present key selected by exactly one of the `keys.length` equally
likely draws, so message counts play no role (the outcome depends on
the ledger only through its key list); and when display-identity
resolution fails, the policy returns the explicit "winner
undeterminable" outcome and nothing else. -/
theorem c3_resolution_outcomes :
    (∀ (ch pick : Nat) (fetch : Nat → Option Nat),
        distribute_reward (some ch) [] pick fetch = RewardOutcome.noWinner) ∧
    (∀ (ch pick : Nat) (fetch : Nat → Option Nat) (ps : List (Nat × Nat)),
        pick < ps.length →
        (fetch ((ps.map Prod.fst).getD pick 0) = none →
          distribute_reward (some ch) ps pick fetch = RewardOutcome.undeterminable) ∧
        (∀ u, fetch ((ps.map Prod.fst).getD pick 0) = some u →
          distribute_reward (some ch) ps pick fetch =
            RewardOutcome.winner ((ps.map Prod.fst).getD pick 0) ∧
          (ps.map Prod.fst).getD pick 0 ∈ ps.map Prod.fst)) ∧
    (∀ (ps : List (Nat × Nat)) (p : Nat),
        (ps.map Prod.fst).Nodup → p ∈ ps.map Prod.fst →
        ((List.range (ps.map Prod.fst).length).filter
          (fun i => decide ((ps.map Prod.fst).getD i 0 = p))).length = 1) ∧
    (∀ (ch pick : Nat) (fetch : Nat → Option Nat) (ps ps' : List (Nat × Nat)),
        ps.map Prod.fst = ps'.map Prod.fst →
        distribute_reward (some ch) ps pick fetch =
          distribute_reward (some ch) ps' pick fetch) := by
  refine ⟨fun ch pick fetch => rfl, fun ch pick fetch ps hlt => ?_,
    fun ps p hnd hp => indices_selecting_eq_one hnd hp,
    fun ch pick fetch ps ps' hkeys => ?_⟩
  · have hne : (ps.map Prod.fst).isEmpty = false := by
      rcases ps with _ | ⟨a, t⟩
      · simp at hlt
      · rfl
    constructor
    · intro hfetch
      simp only [distribute_reward, hne, Bool.false_eq_true, if_false, hfetch]
    · intro u hfetch
      refine ⟨?_, getD_mem_of_lt (by simpa using hlt)⟩
      simp only [distribute_reward, hne, Bool.false_eq_true, if_false, hfetch]
  · simp only [distribute_reward, hkeys]

/-- Witness for C3: two participants with unequal message counts; an
empty ledger yields "no winner", a failing lookup yields the fallback,
a successful lookup crowns the drawn key, which is uniquely drawn. -/
theorem c3_resolution_outcomes_witness :
    distribute_reward (some 1) [] 0 (fun _ => none) = RewardOutcome.noWinner ∧
    distribute_reward (some 1) [(5, 3), (7, 1)] 1 (fun _ => none) =
      RewardOutcome.undeterminable ∧
    distribute_reward (some 1) [(5, 3), (7, 1)] 1 (fun n => some n) =
      RewardOutcome.winner (([(5, 3), (7, 1)].map Prod.fst).getD 1 0) ∧
    (([(5, 3), (7, 1)].map Prod.fst).getD 1 0 ∈ [(5, 3), (7, 1)].map Prod.fst) ∧
    ((List.range ([(5, 3), (7, 1)].map Prod.fst).length).filter
      (fun i => decide ((([(5, 3), (7, 1)] : List (Nat × Nat)).map Prod.fst).getD i 0 = 7))).length = 1 ∧
    distribute_reward (some 1) [(5, 3), (7, 1)] 0 (fun n => some n) =
      distribute_reward (some 1) [(5, 999), (7, 0)] 0 (fun n => some n) :=
  ⟨c3_resolution_outcomes.1 1 0 (fun _ => none),
   ((c3_resolution_outcomes.2.1 1 1 (fun _ => none) [(5, 3), (7, 1)] (by decide)).1 (by decide)),
   ((c3_resolution_outcomes.2.1 1 1 (fun n => some n) [(5, 3), (7, 1)] (by decide)).2 7 (by decide)).1,
   ((c3_resolution_outcomes.2.1 1 1 (fun n => some n) [(5, 3), (7, 1)] (by decide)).2 7 (by decide)).2,
   c3_resolution_outcomes.2.2.1 [(5, 3), (7, 1)] 7 (by decide) (by decide),
   c3_resolution_outcomes.2.2.2 1 0 (fun n => some n) [(5, 3), (7, 1)] [(5, 999), (7, 0)] (by decide)⟩

/-- Appending one reminder to the scan list: the loop keeps the new
entry when it qualifies and otherwise keeps the previous result. -/
theorem relevantReminder_append (e : ℤ) (l : Option ℤ) (rs : List (ℤ × String))
    (r : ℤ × String) :
    relevantReminder e l (rs ++ [r]) =
      if r.1 ≤ e ∧ lastOk l r.1 = true then some r else relevantReminder e l rs := by
  simp [relevantReminder, List.foldl_append]

/-- C4: for any reminder list with strictly ascending thresholds
(which the program's `reminders` list has), the selection loop returns
`none` exactly when no threshold has been reached that is strictly
above the last fired one, and otherwise returns a reached,
not-yet-fired threshold that is the largest such — newly crossed lower
thresholds are skipped.  They are also never queued: once the program's
single threshold 30 is recorded as fired, no tick selects any reminder
again. -/
theorem c4_reminder_selection :
    (∀ (e : ℤ) (l : Option ℤ) (rs : List (ℤ × String)),
        (rs.map Prod.fst).Sorted (· < ·) →
        ((relevantReminder e l rs = none ↔
            ∀ r ∈ rs, ¬(r.1 ≤ e ∧ lastOk l r.1 = true)) ∧
          (∀ r, relevantReminder e l rs = some r →
            r ∈ rs ∧ r.1 ≤ e ∧ lastOk l r.1 = true ∧
              ∀ r' ∈ rs, r'.1 ≤ e → lastOk l r'.1 = true → r'.1 ≤ r.1))) ∧
    (∀ e : ℤ, relevantReminder e (some 30) reminders = none) := by
  constructor
  · intro e l rs hs
    induction rs using List.reverseRecOn with
    | nil => simp [relevantReminder]
    | append_singleton rs r ih =>
      rw [List.map_append] at hs
      rcases List.pairwise_append.mp hs with ⟨hs1, _, hlt⟩
      have ih' := ih hs1
      rw [relevantReminder_append]
      by_cases hc : r.1 ≤ e ∧ lastOk l r.1 = true
      · rw [if_pos hc]
        refine ⟨⟨fun h => by simp at h, fun hall => absurd hc (hall r (by simp))⟩, ?_⟩
        intro rr hrr
        have heq : rr = r := by
          injection hrr with h2
          exact h2.symm
        subst heq
        refine ⟨List.mem_append_right _ (by simp), hc.1, hc.2, ?_⟩
        intro r2 hr2 hle2 hok2
        rcases List.mem_append.mp hr2 with h | h
        · exact le_of_lt (hlt r2.1 (List.mem_map_of_mem Prod.fst h) rr.1 (by simp))
        · have heq2 : r2 = rr := by simpa using h
          rw [heq2]
      · rw [if_neg hc]
        refine ⟨?_, ?_⟩
        · rw [ih'.1]
          constructor
          · intro hall r2 hr2
            rcases List.mem_append.mp hr2 with h | h
            · exact hall r2 h
            · have heq2 : r2 = r := by simpa using h
              rw [heq2]; exact hc
          · intro hall r2 hr2
            exact hall r2 (List.mem_append_left _ hr2)
        · intro rr hsome
          rcases ih'.2 rr hsome with ⟨hmem, hle, hok, hmax⟩
          refine ⟨List.mem_append_left _ hmem, hle, hok, ?_⟩
          intro r2 hr2 hle2 hok2
          rcases List.mem_append.mp hr2 with h | h
          · exact hmax r2 h hle2 hok2
          · have heq2 : r2 = r := by simpa using h
            rw [heq2] at hle2 hok2
            exact absurd ⟨hle2, hok2⟩ hc
  · intro e
    simp only [relevantReminder, reminders, List.foldl]
    rw [if_neg (by simp [lastOk, DURATION])]

/-- Witness for C4: with elapsed 35 and nothing fired yet, the loop
selects the 30-second threshold of the program's list, which is
reached, unfired and maximal among reached thresholds; once 30 is
recorded as fired nothing is selected again. -/
theorem c4_reminder_selection_witness :
    ((30 : ℤ), reminderText) ∈ reminders ∧ (30 : ℤ) ≤ 35 ∧
      lastOk none 30 = true ∧ ((30 : ℤ) ≤ 35 → lastOk none 30 = true → (30 : ℤ) ≤ 30) ∧
      relevantReminder 35 (some 30) reminders = none :=
  have h := (c4_reminder_selection.1 35 none reminders (by decide)).2
    (30, reminderText) (by decide)
  ⟨h.1, h.2.1, h.2.2.1, fun hle hok => h.2.2.2 (30, reminderText) (by decide) hle hok,
   c4_reminder_selection.2 35⟩

/-- C5: `on_message` is a complete no-op — the state is returned
unchanged in every field and no effect fires — whenever the session is
inactive, the message is for a channel other than the bound one, or the
author carries the bot flag (in particular for the bot's own messages,
which carry it, so bot-authored events never reach the ledger). -/
theorem c5_record_event_noop :
    ∀ (now : ℤ) (a : Nat) (b : Bool) (ch : Nat) (s : State),
      s.active = false ∨ s.channel_id ≠ some ch ∨ b = true →
      on_message now a b ch s = (s, []) := by
  intro now a b ch s h
  unfold on_message
  split_ifs with h1 h2 h3 <;> first | rfl | tauto

/-- Witness for C5: a bot-authored message on the bound channel, a
message on a foreign channel, and a message while inactive all leave
the state untouched. -/
theorem c5_record_event_noop_witness :
    on_message 5 7 true 1 sampleActive = (sampleActive, []) ∧
    on_message 5 7 false 2 sampleActive = (sampleActive, []) ∧
    on_message 5 7 false 1 resetState = (resetState, []) :=
  ⟨c5_record_event_noop 5 7 true 1 sampleActive (Or.inr (Or.inr rfl)),
   c5_record_event_noop 5 7 false 2 sampleActive (Or.inr (Or.inl (by decide))),
   c5_record_event_noop 5 7 false 1 resetState (Or.inl rfl)⟩

/-- C6: the band boundaries of the 60-second budget are exact —
remaining 31 is in the "more than 50%" band (green), remaining 30 in
the "more than 25%" band (gold, not green), remaining 15 in the lowest
band (red) — and the color helper agrees with the progress-bar
renderer's segment color at every elapsed value (remaining time being
`DURATION - elapsed`), in particular at these boundaries (elapsed 29,
30 and 45). -/
theorem c6_band_boundaries :
    get_color_based_on_time 31 = DColor.green ∧
    get_color_based_on_time 30 = DColor.gold ∧
    get_color_based_on_time 15 = DColor.red ∧
    progress_bar_color 29 = '🟩' ∧
    progress_bar_color 30 = '🟨' ∧
    progress_bar_color 45 = '🟥' ∧
    (∀ e : ℤ,
      ((get_color_based_on_time (DURATION - e) = DColor.green ↔
          progress_bar_color e = '🟩') ∧
        (get_color_based_on_time (DURATION - e) = DColor.gold ↔
          progress_bar_color e = '🟨') ∧
        (get_color_based_on_time (DURATION - e) = DColor.red ↔
          progress_bar_color e = '🟥'))) := by
  refine ⟨by decide, by decide, by decide, by decide, by decide, by decide, ?_⟩
  intro e
  unfold get_color_based_on_time progress_bar_color
  split_ifs <;> simp_all

end KCA

/-! ## Theorems about the trivia sequencer -/

namespace TriviaMod

/-- C7 (code behavior at the failing input): handing the `trivia`
command a well-formed interval (`5m`) and one attached CSV with no data
rows surfaces no error, and a session holding the empty question list
is stored — its current question does not exist, so the first
`post_question` will fail on `questions[0]`.  A malformed interval
(`5x`), by contrast, is surfaced and creates no session. -/
theorem c7_empty_csv_behavior :
    trivia_cmd false "5m" [[]] = { errors := [], session := some ([], 5) } ∧
    load_trivia_csv [] = [] ∧
    get_current_question (mkSession (load_trivia_csv []) 5) = none ∧
    (trivia_cmd false "5x" [[]]).session = none ∧
    (trivia_cmd false "5x" [[]]).errors ≠ [] := by decide

/-- The correct-answer transition with a next question available:
guards pass, the index advances in the same step and one delayed task
with deadline `now + 60 * time_between` is scheduled; only the win
notice and the channel lock are emitted. -/
theorem on_message_correct_advance
    (now : ℤ) (ch : Nat) (content : String) (s : SState) (q : TriviaQuestion)
    (hact : s.cog_active = true) (hch : s.channel = some ch)
    (hq : get_current_question s = some q)
    (hans : str_lower content = str_lower q.Answer)
    (hnext : has_next_question s = true) :
    trivia_on_message now false ch content s =
      ({ s with
          current_question := s.current_question + 1
          pending := s.pending ++ [now + 60 * s.time_between] },
        [TEff.win s.current_question, TEff.lock]) := by
  unfold trivia_on_message
  rw [if_neg (by simp [hact]), if_neg (by simp [hch]), if_neg (by simp)]
  rw [if_pos (by simp [is_answer_correct, hq, hans]), if_pos hnext]

/-- One step inside a window that closes before every outstanding
deadline: no question is posted, the configured gap is unchanged, and
every deadline still lies at or beyond the window's close. -/
theorem stepT_window (T : ℤ) (tb : Nat) (s : SState) (e : TEvent)
    (htb : s.time_between = tb)
    (hpend : ∀ d ∈ s.pending, T ≤ d)
    (hlt : e.time < T) (hge : T ≤ e.time + 60 * tb) :
    (∀ i, TEff.post i ∉ (stepT s e).2) ∧
      (stepT s e).1.time_between = tb ∧
      (∀ d ∈ (stepT s e).1.pending, T ≤ d) := by
  cases e with
  | msg now b ch c =>
    simp only [stepT, TEvent.time] at hlt hge ⊢
    unfold trivia_on_message
    split_ifs
    · exact ⟨by simp, htb, hpend⟩
    · exact ⟨by simp, htb, hpend⟩
    · exact ⟨by simp, htb, hpend⟩
    · refine ⟨by simp, htb, ?_⟩
      intro d hd
      rcases List.mem_append.mp hd with h | h
      · exact hpend d h
      · have hdq : d = now + 60 * (s.time_between : ℤ) := by simpa using h
        rw [hdq, htb]
        exact hge
    · exact ⟨by simp, htb, hpend⟩
    · exact ⟨by simp, htb, hpend⟩
  | fire now i =>
    simp only [stepT, TEvent.time] at hlt hge ⊢
    rcases hd : s.pending.get? i with _ | d
    · simp only [timer_fire, hd]
      exact ⟨by simp, htb, hpend⟩
    · have hTd : T ≤ d := hpend d (List.get?_mem hd)
      simp only [timer_fire, hd]
      rw [if_neg (by omega : ¬d ≤ now)]
      exact ⟨by simp, htb, hpend⟩

/-- Along any event trace that stays strictly inside a window closing
before every outstanding deadline (and whose events cannot schedule an
earlier one), no question post is ever emitted. -/
theorem runT_no_post_in_window (T : ℤ) (tb : Nat) :
    ∀ (evs : List TEvent) (s : SState),
      s.time_between = tb →
      (∀ d ∈ s.pending, T ≤ d) →
      (∀ e ∈ evs, e.time < T ∧ T ≤ e.time + 60 * tb) →
      ∀ (t : ℤ) (i : Nat), (t, TEff.post i) ∉ (runT s evs).2 := by
  intro evs
  induction evs with
  | nil => intro s _ _ _ t i; simp [runT]
  | cons e es ih =>
    intro s htb hpend hevs t i
    have he := hevs e (by simp)
    have hstep := stepT_window T tb s e htb hpend he.1 he.2
    have hrest := ih (stepT s e).1 hstep.2.1 hstep.2.2
      (fun e' h' => hevs e' (by simp [h'])) t i
    simp only [runT]
    intro hmem
    rcases List.mem_append.mp hmem with h | h
    · rcases List.mem_map.mp h with ⟨f, hf, heq⟩
      have : f = TEff.post i := congrArg Prod.snd heq
      exact hstep.1 i (this ▸ hf)
    · exact hrest h

/-- C8 (counterexample): the claim says question `n+1` is posted only
after the configured delay since the correct answer to question `n` has
fully elapsed, never before.  In the racing trace `exTrace`, question 1
(index 0) is answered at time 10 while its own posting sleep is still
outstanding; the stale sleep fires at time 60 and posts question 2
(index 1) — 50 seconds after the answer, before the configured
1-minute (60-second) gap has elapsed. -/
theorem c8_counterexample :
    ((10 : ℤ), TEff.win 0) ∈ (runT exStart exTrace).2 ∧
    ((60 : ℤ), TEff.post 1) ∈ (runT exStart exTrace).2 ∧
    ((60 : ℤ) < 10 + 60 * 1) ∧
    exStart.time_between = 1 := by decide

/-- C8 (amended): when the correct answer to the current question
arrives while the question is open — i.e. with no outstanding
next-question sleep (`pending = []`) — the question index advances
immediately in the same step, the step itself posts nothing, and no
question is posted by any subsequent events occurring strictly before
the configured `time_between * 60`-second gap has elapsed since the
answer.  (With a stale sleep outstanding the code can post earlier, as
the counterexample shows.) -/
theorem c8_delay_gates_next_question :
    ∀ (s : SState) (now : ℤ) (ch : Nat) (content : String) (q : TriviaQuestion),
      s.cog_active = true → s.channel = some ch →
      get_current_question s = some q →
      str_lower content = str_lower q.Answer →
      has_next_question s = true →
      s.pending = [] →
      ((trivia_on_message now false ch content s).1.current_question =
          s.current_question + 1 ∧
        (∀ i, TEff.post i ∉ (trivia_on_message now false ch content s).2) ∧
        (∀ evs : List TEvent,
          (∀ e ∈ evs, now ≤ e.time ∧ e.time < now + 60 * s.time_between) →
          ∀ (t : ℤ) (i : Nat),
            (t, TEff.post i) ∉ (runT (trivia_on_message now false ch content s).1 evs).2)) := by
  intro s now ch content q hact hch hq hans hnext hpend
  rw [on_message_correct_advance now ch content s q hact hch hq hans hnext]
  refine ⟨rfl, by simp, ?_⟩
  intro evs hevs t i
  refine runT_no_post_in_window (now + 60 * s.time_between) s.time_between evs
    ({ s with
        current_question := s.current_question + 1
        pending := s.pending ++ [now + 60 * s.time_between] }) rfl ?_ ?_ t i
  · intro d hd
    rw [hpend] at hd
    simp only [List.nil_append, List.mem_singleton] at hd
    rw [hd]
  · intro e hmem
    have h := hevs e hmem
    exact ⟨h.2, by omega⟩

/-- Witness for C8 (amended): answering the open question 1 of `exOpen`
at time 0 advances the index at once, posts nothing, and the window
events of `exWindow` (all before time 60) post nothing either. -/
theorem c8_delay_gates_next_question_witness :
    (trivia_on_message 0 false 9 "a1" exOpen).1.current_question = 1 ∧
    TEff.post 1 ∉ (trivia_on_message 0 false 9 "a1" exOpen).2 ∧
    ((30 : ℤ), TEff.post 1) ∉
      (runT (trivia_on_message 0 false 9 "a1" exOpen).1 exWindow).2 :=
  have h := c8_delay_gates_next_question exOpen 0 9 "a1" exQ1 rfl rfl rfl rfl rfl rfl
  ⟨h.1, h.2.1 1, h.2.2 exWindow (by decide) 30 1⟩

/-- C9: with the trivia cog active, an inbound non-bot message in the
bound channel is compared case-insensitively against the answer of the
current question even when that question has not been posted (as during
the waiting phase, where the index was already advanced); on a match
the win notice for that never-shown question fires in the same step
(the question is still unposted afterwards) and, when another question
remains, the index advances immediately again. -/
theorem c9_waiting_phase_answer :
    ∀ (s : SState) (now : ℤ) (ch : Nat) (content : String) (q : TriviaQuestion),
      s.cog_active = true → s.channel = some ch →
      get_current_question s = some q →
      s.current_question ∉ s.posted →
      str_lower content = str_lower q.Answer →
      (TEff.win s.current_question ∈ (trivia_on_message now false ch content s).2 ∧
        (trivia_on_message now false ch content s).1.posted = s.posted ∧
        (has_next_question s = true →
          (trivia_on_message now false ch content s).1.current_question =
            s.current_question + 1)) := by
  intro s now ch content q hact hch hq hpost hans
  unfold trivia_on_message
  rw [if_neg (by simp [hact]), if_neg (by simp [hch]), if_neg (by simp)]
  rw [if_pos (by simp [is_answer_correct, hq, hans])]
  by_cases hnext : has_next_question s = true
  · rw [if_pos hnext]
    exact ⟨by simp, rfl, fun _ => rfl⟩
  · rw [if_neg hnext]
    exact ⟨by simp, rfl, fun h => absurd h hnext⟩

/-- Witness for C9: in the waiting phase of `exWaiting`, the uppercase
message `A2` wins the not-yet-posted question 2; in `exStart` (question
1 never posted), answering it advances the index immediately. -/
theorem c9_waiting_phase_answer_witness :
    TEff.win 1 ∈ (trivia_on_message 5 false 9 "A2" exWaiting).2 ∧
    (trivia_on_message 5 false 9 "A2" exWaiting).1.posted = exWaiting.posted ∧
    (trivia_on_message 5 false 9 "A1" exStart).1.current_question = 1 :=
  have h1 := c9_waiting_phase_answer exWaiting 5 9 "A2" exQ2 rfl rfl rfl (by decide) rfl
  have h2 := c9_waiting_phase_answer exStart 5 9 "A1" exQ1 rfl rfl rfl (by decide) rfl
  ⟨h1.1, h1.2.1, h2.2.2 rfl⟩

/-- C10: a session built from a non-empty question list starts with its
index in bounds; every operation (answer handling, timer firings)
preserves the bound — the index only advances when a next question
exists — and an in-bounds index means `get_current_question` indexes
within the list. -/
theorem c10_question_index_in_bounds :
    (∀ (qs : List TriviaQuestion) (tb : Nat) (now : ℤ) (ch : Nat),
        qs ≠ [] →
        (sessionStart now ch (mkSession qs tb)).1.current_question <
          (sessionStart now ch (mkSession qs tb)).1.questions.length) ∧
    (∀ (s : SState) (e : TEvent),
        s.current_question < s.questions.length →
        (stepT s e).1.current_question < (stepT s e).1.questions.length) ∧
    (∀ s : SState, s.current_question < s.questions.length →
        (get_current_question s).isSome = true) := by
  refine ⟨?_, ?_, ?_⟩
  · intro qs tb now ch hne
    simpa [sessionStart, mkSession] using List.length_pos.mpr hne
  · intro s e h
    cases e with
    | msg now b ch c =>
      simp only [stepT]
      unfold trivia_on_message
      split_ifs with h1 h2 h3 h4 h5
      · exact h
      · exact h
      · exact h
      · have h5' : s.current_question + 1 < s.questions.length := by
          simpa [has_next_question] using h5
        simpa using h5'
      · exact h
      · exact h
    | fire now i =>
      simp only [stepT]
      rcases hd : s.pending.get? i with _ | d
      · simp only [timer_fire, hd]
        exact h
      · simp only [timer_fire, hd]
        split_ifs with hle hsess
        · exact h
        · split
          · exact h
          · exact h
        · exact h
  · intro s h
    rw [get_current_question, List.get?_eq_get h]
    rfl

/-- Witness for C10: a one-question session starts in bounds; a correct
answer on `exStart` keeps the index in bounds; the current question of
`exStart` exists. -/
theorem c10_question_index_in_bounds_witness :
    (sessionStart 0 9 (mkSession [exQ1] 1)).1.current_question <
      (sessionStart 0 9 (mkSession [exQ1] 1)).1.questions.length ∧
    (stepT exStart (TEvent.msg 10 false 9 "A1")).1.current_question <
      (stepT exStart (TEvent.msg 10 false 9 "A1")).1.questions.length ∧
    (get_current_question exStart).isSome = true :=
  ⟨c10_question_index_in_bounds.1 [exQ1] 1 0 9 (by decide),
   c10_question_index_in_bounds.2.1 exStart (TEvent.msg 10 false 9 "A1") (by decide),
   c10_question_index_in_bounds.2.2 exStart (by decide)⟩

end TriviaMod
